import Mathlib

/-
Verification development for the Swpify swipe-session engine.

The repository contains two near-duplicate Streamlit variants of the same
application:
  * src/swipify_app.py  — state persisted in a JSON file (`load_state`/`save_state`),
    a single `last_action` undo slot, a retry/backoff wrapper `sp_call`;
  * src/swpify_app.py   — state in `st.session_state`, an undo *stack* `LAST`,
    no backoff wrapper.

Below, names prefixed `sp…` model the session-state variant (swpify_app.py) and
names prefixed `sw…` model the file-state variant (swipify_app.py).  Remote
Spotify calls are modelled by the calls they issue (`RCall`) together with a
boolean "the remote call raised" parameter; randomness (`random.shuffle`) is
modelled by an explicit permutation parameter; timestamps and the current date
are threaded as opaque string parameters.
-/

namespace Swpify

/-- Python's `needle in haystack` prefix step: `isPref n h` holds when `n` is an
initial segment of `h` (over character lists). -/
def isPref : List Char → List Char → Bool
  | [], _ => true
  | _ :: _, [] => false
  | a :: as, b :: bs => a == b && isPref as bs

/-- Python's substring containment over character lists: some suffix of the
haystack starts with the needle (the empty needle is contained everywhere). -/
def inChars (needle : List Char) : List Char → Bool
  | [] => needle.isEmpty
  | c :: t => isPref needle (c :: t) || inChars needle t

/-- Python's `needle in haystack` on strings. -/
def pyIn (needle hay : String) : Bool :=
  inChars needle.toList hay.toList

/-- Python's `str.lower()` (character-wise lowering). -/
def pyLower (s : String) : String :=
  ⟨s.toList.map Char.toLower⟩

/-- Python's `str.strip()` (drop leading and trailing whitespace). -/
def pyStrip (s : String) : String :=
  ⟨((s.toList.dropWhile Char.isWhitespace).reverse.dropWhile Char.isWhitespace).reverse⟩

/-- Python's `s[:4]` (the 4-character prefix). -/
def take4 (s : String) : String :=
  ⟨s.toList.take 4⟩

/-- The five user decisions of the app (`keep`, `remove`, file to Keepers,
file to Favourites, `skip`). -/
inductive Action
  | keep
  | remove
  | keepers
  | favourite
  | skip
deriving DecidableEq, Repr

/-- One Ledger ("seen") entry: the recorded decision and its timestamp, as in
`seen[track_id] = {"action": a, "ts": now_iso()}`. -/
structure SeenEntry where
  action : Action
  ts : String
deriving DecidableEq, Repr

/-- The Ledger / seen map, a Python dict keyed by track id. -/
abbrev Seen := List (String × SeenEntry)

/-- Remove a key from a dict (Python `del d[k]` / `d.pop(k, None)`). -/
def dictErase (k : String) (m : List (String × α)) : List (String × α) :=
  m.filter (fun p => p.1 != k)

/-- Insert/overwrite a dict entry (Python `d[k] = v`). -/
def dictInsert (k : String) (v : α) (m : List (String × α)) : List (String × α) :=
  (k, v) :: dictErase k m

/-- Dict lookup (Python `d.get(k)`). -/
def lookupA (k : String) (m : List (String × α)) : Option α :=
  (m.find? (fun p => p.1 == k)).map (·.2)

/-- The remote Spotify calls the engine issues (the four side-effecting
operations used by decisions and undo). -/
inductive RCall
  | savedDelete (tid : String)
  | savedAdd (tid : String)
  | plAdd (pid tid : String)
  | plRemoveAll (pid tid : String)
deriving DecidableEq, Repr

/-! ## Backoff executor (`sp_call`, swipify_app.py lines 108–128) -/

/-- Outcome of one invocation of the wrapped zero-argument remote call:
success, a `SpotifyException` with HTTP status and (parsed) `Retry-After`
header value, or any other exception. -/
inductive SpOut (α : Type)
  | ok (v : α)
  | spErr (status : Nat) (retryAfter : Int)
  | genErr
deriving DecidableEq, Repr

/-- The retry loop of `sp_call`.  `loopLeft` is the number of remaining
iterations of `for _ in range(max_tries - 1)`, `i` the index of the next
attempt, `delay` the current backoff delay.  Returns the result (success or
the raised outcome), the list of sleep durations, and the number of attempts
made.  The final attempt (`loopLeft = 0`) is made unconditionally. -/
def spCallLoop (fn : Nat → SpOut α) : Nat → Nat → Int → Except (SpOut α) α × List Int × Nat
  | 0, i, _ =>
    (match fn i with
     | .ok v => .ok v
     | o => .error o,
     [], i + 1)
  | n + 1, i, delay =>
    match fn i with
    | .ok v => (.ok v, [], i + 1)
    | .spErr status ra =>
      if status == 429 then
        let res := spCallLoop fn n (i + 1) (min (delay * 2) 16)
        (res.1, (if ra > 0 then ra else delay) :: res.2.1, res.2.2)
      else if status == 500 || status == 502 || status == 503 || status == 504 then
        let res := spCallLoop fn n (i + 1) (min (delay * 2) 16)
        (res.1, delay :: res.2.1, res.2.2)
      else
        (.error (.spErr status ra), [], i + 1)
    | .genErr =>
      let res := spCallLoop fn n (i + 1) (min (delay * 2) 16)
      (res.1, delay :: res.2.1, res.2.2)

/-- `sp_call(fn, max_tries)` — the attempt at index `maxTries - 1` is the final
unconditional `return fn()`; the initial delay is 1. -/
def spCall (fn : Nat → SpOut α) (maxTries : Nat) : Except (SpOut α) α × List Int × Nat :=
  spCallLoop fn (maxTries - 1) 0 1

/-! ## Pagination (`fetch_all_liked_ids`, swipify_app.py lines 157–169) -/

/-- Page size for saved-tracks pagination. -/
def PAGE_SIZE : Nat := 50

/-- One loop of `fetch_all_liked_ids` over a source whose full server-ordered
id list is `L`: each batch is `L[offset : offset+PAGE_SIZE]`, the reported
total is `L.length`; stop on an empty page or once the total is reached.
`fuel` bounds the number of iterations (supplied amply at the top level). -/
def fetchLoop (L : List String) : Nat → Nat → List String
  | 0, _ => []
  | fuel + 1, offset =>
    let items := (L.drop offset).take PAGE_SIZE
    if items.isEmpty then []
    else
      items ++ (if L.length ≤ offset + items.length then []
                else fetchLoop L fuel (offset + items.length))

/-- `fetch_all_liked_ids` over a source with server-ordered id list `L`. -/
def fetch_all_liked_ids (L : List String) : List String :=
  fetchLoop L (L.length + 1) 0

/-! ## Track metadata and the filter evaluator -/

/-- Track metadata as used by the filters: id, title, contributor (artist)
names, album name, release date. -/
structure Track where
  id : String
  name : String
  artists : List String
  albumName : String
  releaseDate : String
deriving DecidableEq, Repr

/-- The text blob of `apply_filters` (swpify_app.py lines 205–209):
`" ".join([name, ", ".join(artist names), album name]).lower()`. -/
def trackBlob (tr : Track) : String :=
  pyLower (String.intercalate " " [tr.name, String.intercalate ", " tr.artists, tr.albumName])

/-- Per-track filter body of `apply_filters` (swpify_app.py lines 203–216).
`term`/`artist` arrive already stripped and lowercased, `year` stripped, as
done at the top of `apply_filters`; an empty criterion is skipped. -/
def spTrackOk (term artist year : String) (tr : Track) : Bool :=
  (term == "" || pyIn term (trackBlob tr)) &&
  (artist == "" || pyIn artist (pyLower (String.intercalate ", " tr.artists))) &&
  (year == "" || take4 tr.releaseDate == year)

/-- The per-item evaluator at the `apply_filters` interface: criteria are
stripped (and, for `term`/`artist`, lowercased) before the per-track body. -/
def spMatches (term artist year : String) (tr : Track) : Bool :=
  spTrackOk (pyLower (pyStrip term)) (pyLower (pyStrip artist)) (pyStrip year) tr

/-- `apply_filters` (swpify_app.py lines 188–223).  `meta` models the
`sp.tracks` metadata fetch (`none` for a null entry, which is skipped); the
chunking into batches of 50 preserves order and elements and is collapsed.
If all three criteria are blank after stripping, the ids pass unfiltered;
otherwise an id is kept (as the fetched track's id) when the per-track body
accepts it and the track has a non-empty id. -/
def apply_filters (meta : String → Option Track) (term artist year : String)
    (ids : List String) : List String :=
  let term := pyLower (pyStrip term)
  let artist := pyLower (pyStrip artist)
  let year := pyStrip year
  if term == "" && artist == "" && year == "" then ids
  else
    ids.filterMap (fun tid =>
      match meta tid with
      | none => none
      | some tr =>
        if spTrackOk term artist year tr && tr.id != "" then some tr.id else none)

/-- Per-track filter body of `refill_queue` in the swipify_app.py variant
(lines 182–197): the text term is matched separately against the lowered
title, the lowered joined artist names, and the lowered album name (not
against their concatenation); criteria guards use Python truthiness of the
raw inputs, the year is compared against the stripped filter year. -/
def swTrackOk (term artist year : String) (tr : Track) : Bool :=
  (term == "" ||
    (pyIn (pyLower term) (pyLower tr.name) ||
     pyIn (pyLower term) (pyLower (String.intercalate ", " tr.artists)) ||
     pyIn (pyLower term) (pyLower tr.albumName))) &&
  (artist == "" || pyIn (pyLower artist) (pyLower (String.intercalate ", " tr.artists))) &&
  (year == "" || take4 tr.releaseDate == pyStrip year)

/-! ## Owned playlists and `ensure_playlist` -/

/-- One remote playlist: id, name, owner id. -/
structure Playlist where
  id : String
  plName : String
  owner : String
deriving DecidableEq, Repr

/-- The remote store of the current user's playlists. -/
structure RemoteSt where
  me : String
  playlists : List Playlist
deriving DecidableEq, Repr

/-- The pagination loop over `current_user_playlists` searching for an exact
name match owned by the current user (`pl["name"] == name_val and
pl["owner"]["id"] == me`); pagination over 50-item pages is collapsed into a
first-match search of the full owned list. -/
def findPl (me nm : String) (pls : List Playlist) : Option Playlist :=
  pls.find? (fun pl => pl.plName == nm && pl.owner == me)

/-- Result of `ensure_playlist` (swipify_app.py lines 131–155): the returned
playlist id, the updated cached id and name (the state-file fields under
`id_key`/`name_key`), the updated remote store, and the number of remote
create calls issued. -/
structure EnsureRes where
  pid : String
  cachedId : Option String
  cachedName : String
  remote : RemoteSt
  creates : Nat
deriving DecidableEq, Repr

/-- `ensure_playlist(sp, name_key, id_key, name_val)` (swipify_app.py lines
131–155): drop the cached id when the cached name differs from `nameVal`;
return a cached id if present; otherwise look up an exact-name owned playlist
(paginating all owned playlists) and cache it; otherwise create a private
playlist (its fresh remote id is the parameter `freshId`), cache and return
its id. -/
def ensurePlaylist (cachedName : String) (cachedId : Option String) (nameVal : String)
    (r : RemoteSt) (freshId : String) : EnsureRes :=
  let cid := if cachedName = nameVal then cachedId else none
  match cid with
  | some pid => ⟨pid, some pid, nameVal, r, 0⟩
  | none =>
    match findPl r.me nameVal r.playlists with
    | some pl => ⟨pl.id, some pl.id, nameVal, r, 0⟩
    | none =>
      ⟨freshId, some freshId, nameVal,
        ⟨r.me, r.playlists ++ [⟨freshId, nameVal, r.me⟩]⟩, 1⟩

/-- `ensure_playlist(sp, name)` of the swpify_app.py variant (lines 156–165):
no cache inside the function — exact-name lookup over all owned playlists,
then create on miss.  Returns (playlist id, updated remote store, number of
create calls). -/
def ensurePlaylistNC (nm : String) (r : RemoteSt) (freshId : String) :
    String × RemoteSt × Nat :=
  match findPl r.me nm r.playlists with
  | some pl => (pl.id, r, 0)
  | none => (freshId, ⟨r.me, r.playlists ++ [⟨freshId, nm, r.me⟩]⟩, 1)

/-! ## Session state and action handlers — swpify_app.py (session-state variant) -/

/-- One undo-stack entry of `LAST`:
`{"id": tid, "action": a, "payload": playlist id?}`. -/
structure UndoEntry where
  id : String
  action : Action
  payload : Option String
deriving DecidableEq, Repr

/-- The engine state of the swpify_app.py variant (`st.session_state`):
queue of track ids, seen map, undo stack (most-recent-last), cached playlist
ids, daily swipe counter and its date. -/
structure SpState where
  queue : List String
  seen : Seen
  last : List UndoEntry
  keepersId : Option String
  favsId : Option String
  swipedToday : Nat
  swipedDay : String
deriving DecidableEq, Repr

/-- `bump_swiped` (swpify_app.py lines 78–83): reset the counter on a date
change, then increment. -/
def bumpSwiped (today : String) (s : SpState) : SpState :=
  { s with swipedDay := today,
           swipedToday := (if s.swipedDay = today then s.swipedToday else 0) + 1 }

/-- The KEEP handler (swpify_app.py lines 323–326), applied to the head of the
queue: record the seen entry, push the undo entry, pop the head, bump the
daily counter.  No remote call. -/
def spKeep (ts today : String) (s : SpState) : SpState × List RCall :=
  match s.queue with
  | [] => (s, [])
  | tid :: rest =>
    (bumpSwiped today
      { s with seen := dictInsert tid ⟨.keep, ts⟩ s.seen,
               last := s.last ++ [⟨tid, .keep, none⟩],
               queue := rest }, [])

/-- The REMOVE handler (swpify_app.py lines 328–335): `unlike` first
(`remoteFails` models that call raising); only on success record the seen
entry, push the undo entry, pop the head, bump. -/
def spRemove (remoteFails : Bool) (ts today : String) (s : SpState) : SpState × List RCall :=
  match s.queue with
  | [] => (s, [])
  | tid :: rest =>
    if remoteFails then (s, [.savedDelete tid])
    else
      (bumpSwiped today
        { s with seen := dictInsert tid ⟨.remove, ts⟩ s.seen,
                 last := s.last ++ [⟨tid, .remove, none⟩],
                 queue := rest }, [.savedDelete tid])

/-- The → Favourites handler (swpify_app.py lines 337–344): `add_to_playlist`
with the session-cached favourites playlist id first; only on success record,
push (with the playlist id as payload), pop, bump. -/
def spFav (remoteFails : Bool) (ts today : String) (s : SpState) : SpState × List RCall :=
  match s.queue with
  | [] => (s, [])
  | tid :: rest =>
    let pid := s.favsId.getD ""
    if remoteFails then (s, [.plAdd pid tid])
    else
      (bumpSwiped today
        { s with seen := dictInsert tid ⟨.favourite, ts⟩ s.seen,
                 last := s.last ++ [⟨tid, .favourite, s.favsId⟩],
                 queue := rest }, [.plAdd pid tid])

/-- The → Keepers handler (swpify_app.py lines 346–353), symmetric to
`spFav` with the keepers playlist id. -/
def spKeepers (remoteFails : Bool) (ts today : String) (s : SpState) : SpState × List RCall :=
  match s.queue with
  | [] => (s, [])
  | tid :: rest =>
    let pid := s.keepersId.getD ""
    if remoteFails then (s, [.plAdd pid tid])
    else
      (bumpSwiped today
        { s with seen := dictInsert tid ⟨.keepers, ts⟩ s.seen,
                 last := s.last ++ [⟨tid, .keepers, s.keepersId⟩],
                 queue := rest }, [.plAdd pid tid])

/-- The SKIP handler (swpify_app.py lines 355–358): record a `skip` seen
entry, rotate the head to the tail.  No undo entry, no counter bump, no
remote call. -/
def spSkip (ts : String) (s : SpState) : SpState × List RCall :=
  match s.queue with
  | [] => (s, [])
  | tid :: rest =>
    ({ s with seen := dictInsert tid ⟨.skip, ts⟩ s.seen,
              queue := rest ++ [tid] }, [])

/-- `perform_undo` (swpify_app.py lines 363–382): return unchanged on an
empty stack; otherwise pop the most recent entry (the pop happens before the
`try` block, so it persists even on failure), issue the reversal call
(re-add for `remove`, playlist removal for `favourite`/`keepers` when a
payload is present, nothing otherwise); if that call raises
(`remoteFails`, only possible when a call is made) the local rollback is
skipped; on success erase the seen entry and move the id to the queue head. -/
def performUndo (remoteFails : Bool) (s : SpState) : SpState × List RCall :=
  match s.last.getLast? with
  | none => (s, [])
  | some e =>
    let s1 := { s with last := s.last.dropLast }
    let calls : List RCall :=
      match e.action with
      | .remove => [.savedAdd e.id]
      | .favourite | .keepers =>
        match e.payload with
        | some pid => [.plRemoveAll pid e.id]
        | none => []
      | _ => []
    if remoteFails && !calls.isEmpty then (s1, calls)
    else
      ({ s1 with seen := dictErase e.id s1.seen,
                 queue := e.id :: s1.queue.erase e.id }, calls)

/-- `build_queue` (swpify_app.py lines 225–241): fetch all liked ids, drop
the ones already in the seen map, apply the filters when any raw criterion is
non-empty, shuffle on request (`perm` models `random.shuffle`), and replace
the queue. -/
def build_queue (meta : String → Option Track) (L : List String)
    (perm : List String → List String) (doShuffle : Bool)
    (term artist year : String) (s : SpState) : SpState :=
  let liked := fetch_all_liked_ids L
  let liked := liked.filter (fun tid => (lookupA tid s.seen).isNone)
  let liked := if term != "" || artist != "" || year != "" then
                 apply_filters meta term artist year liked
               else liked
  let liked := if doShuffle then perm liked else liked
  { s with queue := liked }

/-- The queue/Ledger invariant of the spec (§3): no id appears twice in the
queue, and no id in the queue has a Ledger entry. -/
def Inv (s : SpState) : Prop :=
  s.queue.Nodup ∧ ∀ tid ∈ s.queue, lookupA tid s.seen = none

/-! ## State and action handlers — swipify_app.py (file-state variant)

The Python file keeps its state in a JSON file reloaded per run; the
load/save round trips are collapsed into one explicit state value. -/

/-- The engine state of the swipify_app.py variant (`swpify_state.json`):
queue, seen map, the single `last_action` undo slot, the playlist name/id
cache for the Keepers and Favourites playlists, and the daily counter. -/
structure SwState where
  queue : List String
  seen : Seen
  lastAction : Option (String × Action)
  keepersName : String
  keepersId : Option String
  favsName : String
  favsId : Option String
  swipedToday : Nat
  swipedDay : String
deriving DecidableEq, Repr

/-- `record_action` (swipify_app.py lines 383–393): overwrite the seen entry
for the current id, set the `last_action` slot, reset the daily counter on a
date change, and increment it. -/
def recordAction (tid : String) (a : Action) (ts today : String) (s : SwState) : SwState :=
  { s with seen := dictInsert tid ⟨a, ts⟩ s.seen,
           lastAction := some (tid, a),
           swipedDay := today,
           swipedToday := (if s.swipedDay = today then s.swipedToday else 0) + 1 }

/-- The KEEP handler (swipify_app.py lines 396–400): record then pop the
head. -/
def swKeep (ts today : String) (s : SwState) : SwState × List RCall :=
  match s.queue with
  | [] => (s, [])
  | tid :: rest => ({ recordAction tid .keep ts today s with queue := rest }, [])

/-- The REMOVE handler (swipify_app.py lines 402–410): `action_remove` first;
on failure the state is untouched and the error is shown, on success record
and pop. -/
def swRemove (remoteFails : Bool) (ts today : String) (s : SwState) : SwState × List RCall :=
  match s.queue with
  | [] => (s, [])
  | tid :: rest =>
    if remoteFails then (s, [.savedDelete tid])
    else ({ recordAction tid .remove ts today s with queue := rest }, [.savedDelete tid])

/-- The KEEP → Keepers handler (swipify_app.py lines 412–422):
`ensure_playlist` on the current keepers name (its failure, `ensureFails`,
raises before anything is touched), then `action_add_to_playlist`
(`addFails`); only on full success record and pop.  The state is the
persisted state file: `ensure_playlist` re-loads it, writes its id cache and
saves; when the add then raises, the handler never saves again, so the file
keeps that cache write — but on success the handler's final
`save_state(state)` writes the *stale* handler dict, clobbering the id
`ensure_playlist` just saved, so the persisted keepers id keeps its old
value. -/
def swKeepers (ensureFails addFails : Bool) (freshId ts today : String)
    (r : RemoteSt) (s : SwState) : SwState × RemoteSt × List RCall :=
  match s.queue with
  | [] => (s, r, [])
  | tid :: rest =>
    if ensureFails then (s, r, [])
    else
      let e := ensurePlaylist s.keepersName s.keepersId s.keepersName r freshId
      if addFails then
        ({ s with keepersId := e.cachedId }, e.remote, [.plAdd e.pid tid])
      else
        ({ recordAction tid .keepers ts today s with queue := rest },
         e.remote, [.plAdd e.pid tid])

/-- The ⭐ FAVOURITE handler (swipify_app.py lines 424–434), symmetric to
`swKeepers` with the favourites playlist (including the stale-save clobbering
of the favourites id cache on success). -/
def swFav (ensureFails addFails : Bool) (freshId ts today : String)
    (r : RemoteSt) (s : SwState) : SwState × RemoteSt × List RCall :=
  match s.queue with
  | [] => (s, r, [])
  | tid :: rest =>
    if ensureFails then (s, r, [])
    else
      let e := ensurePlaylist s.favsName s.favsId s.favsName r freshId
      if addFails then
        ({ s with favsId := e.cachedId }, e.remote, [.plAdd e.pid tid])
      else
        ({ recordAction tid .favourite ts today s with queue := rest },
         e.remote, [.plAdd e.pid tid])

/-- The SKIP handler (swipify_app.py lines 436–440): record a `skip` entry
(which also sets `last_action` and bumps the counter) and rotate the head to
the tail. -/
def swSkip (ts today : String) (s : SwState) : SwState × List RCall :=
  match s.queue with
  | [] => (s, [])
  | tid :: rest => ({ recordAction tid .skip ts today s with queue := rest ++ [tid] }, [])

/-- `undo_last_action` (swipify_app.py lines 444–472): warn and return on an
empty `last_action` slot; otherwise run the reversal remote call for the
recorded action inside a `try` (`remoteFails` models the reversal call
itself raising — for `keep`/`skip` no reversal call is made and nothing can
fail); on success erase the seen entry, move the id to the queue head, clear
the slot, and decrement the counter (floored at 0).  When the reversal
raises, none of those local mutations happen — but the reversal call was
still issued, and for a `keepers`/`favourite` undo the preceding successful
`ensure_playlist` has already persisted its playlist-id cache to the state
file (the handler never saves after the failure, so that write survives); on
*success* the handler's final stale `save_state` clobbers it, so the cache
keeps its old value there. -/
def swUndo (remoteFails : Bool) (freshId : String) (r : RemoteSt) (s : SwState) :
    SwState × RemoteSt × List RCall :=
  match s.lastAction with
  | none => (s, r, [])
  | some (tid, act) =>
    let rollback : SwState :=
      { s with seen := dictErase tid s.seen,
               queue := tid :: s.queue.erase tid,
               lastAction := none,
               swipedToday := s.swipedToday - 1 }
    match act with
    | .remove =>
      if remoteFails then (s, r, [.savedAdd tid])
      else (rollback, r, [.savedAdd tid])
    | .keepers =>
      let e := ensurePlaylist s.keepersName s.keepersId s.keepersName r freshId
      if remoteFails then
        ({ s with keepersId := e.cachedId }, e.remote, [.plRemoveAll e.pid tid])
      else (rollback, e.remote, [.plRemoveAll e.pid tid])
    | .favourite =>
      let e := ensurePlaylist s.favsName s.favsId s.favsName r freshId
      if remoteFails then
        ({ s with favsId := e.cachedId }, e.remote, [.plRemoveAll e.pid tid])
      else (rollback, e.remote, [.plRemoveAll e.pid tid])
    | _ => (rollback, r, [])

/-- `refill_queue` (swipify_app.py lines 171–206): fetch all liked ids, drop
the ones already in the seen map, and — when any raw criterion is non-empty —
keep the ids whose metadata passes the per-track filter body (null tracks are
skipped and the fetched track's id is what gets appended, with no emptiness
check on it); shuffle on request (`perm` models `random.shuffle`) and replace
the queue. -/
def refill_queue (meta : String → Option Track) (L : List String)
    (perm : List String → List String) (doShuffle : Bool)
    (term artist year : String) (s : SwState) : SwState :=
  let liked := fetch_all_liked_ids L
  let liked := liked.filter (fun tid => (lookupA tid s.seen).isNone)
  let liked := if term != "" || artist != "" || year != "" then
      liked.filterMap (fun tid =>
        match meta tid with
        | none => none
        | some tr => if swTrackOk term artist year tr then some tr.id else none)
    else liked
  let liked := if doShuffle then perm liked else liked
  { s with queue := liked }

/-- The queue/Ledger invariant of the spec (§3) for the swipify_app.py
variant's state. -/
def SwInv (s : SwState) : Prop :=
  s.queue.Nodup ∧ ∀ tid ∈ s.queue, lookupA tid s.seen = none

/-! ## Helper lemmas: dict semantics -/

theorem find?_filter_ne (x k : String) (h : x ≠ k) (m : List (String × α)) :
    (m.filter (fun p => p.1 != k)).find? (fun p => p.1 == x) =
      m.find? (fun p => p.1 == x) := by
  induction m with
  | nil => rfl
  | cons p t ih =>
    rw [List.filter_cons]
    by_cases hpk : p.1 = k
    · have hpx : (p.1 == x) = false := by
        simp only [beq_eq_false_iff_ne, ne_eq]
        intro hx
        exact h (hx ▸ hpk)
      rw [if_neg (by simp [hpk]), ih, List.find?_cons, hpx]
    · rw [if_pos (by simp [hpk])]
      cases hpx : (p.1 == x) <;> simp only [List.find?_cons, hpx, ih]

theorem lookupA_dictErase_self (k : String) (m : List (String × α)) :
    lookupA k (dictErase k m) = none := by
  unfold lookupA dictErase
  rw [List.find?_eq_none.mpr]
  · rfl
  · intro p hp hbe
    have h2 := (List.mem_filter.mp hp).2
    simp only [bne_iff_ne, ne_eq] at h2
    exact h2 (by simpa using hbe)

theorem lookupA_dictErase_ne (x k : String) (h : x ≠ k) (m : List (String × α)) :
    lookupA x (dictErase k m) = lookupA x m := by
  unfold lookupA dictErase
  rw [find?_filter_ne x k h]

theorem lookupA_dictInsert_self (k : String) (v : α) (m : List (String × α)) :
    lookupA k (dictInsert k v m) = some v := by
  unfold lookupA dictInsert
  rw [List.find?_cons]
  simp

theorem lookupA_dictInsert_ne (x k : String) (v : α) (h : x ≠ k) (m : List (String × α)) :
    lookupA x (dictInsert k v m) = lookupA x m := by
  have hbx : (k == x) = false := by
    simp only [beq_eq_false_iff_ne, ne_eq]
    exact fun e => h e.symm
  unfold dictInsert
  have h1 : lookupA x ((k, v) :: dictErase k m) = lookupA x (dictErase k m) := by
    unfold lookupA
    rw [List.find?_cons, hbx]
  rw [h1, lookupA_dictErase_ne x k h]

/-! ## Helper lemmas: pagination -/

theorem fetchLoop_drop (L : List String) :
    ∀ fuel offset, L.length ≤ offset + fuel → fetchLoop L fuel offset = L.drop offset := by
  intro fuel
  induction fuel with
  | zero =>
    intro offset h
    simp only [fetchLoop]
    exact (List.drop_eq_nil_of_le (by omega)).symm
  | succ n ih =>
    intro offset h
    simp only [fetchLoop]
    by_cases he : ((L.drop offset).take PAGE_SIZE).isEmpty
    · rw [if_pos he]
      have hnil : (L.drop offset).take PAGE_SIZE = [] := by
        simpa [List.isEmpty_iff] using he
      rcases List.take_eq_nil_iff.mp hnil with h50 | hd
      · simp [PAGE_SIZE] at h50
      · exact hd.symm
    · rw [if_neg he]
      have hdpos : 0 < (L.drop offset).length := by
        by_contra hz
        push_neg at hz
        have hnil : L.drop offset = [] :=
          List.eq_nil_of_length_eq_zero (Nat.le_zero.mp hz)
        exact he (by simp [hnil])
      have hdlen : (L.drop offset).length = L.length - offset := List.length_drop ..
      have hitems : ((L.drop offset).take PAGE_SIZE).length =
          min PAGE_SIZE (L.drop offset).length := List.length_take ..
      by_cases hstop : L.length ≤ offset + ((L.drop offset).take PAGE_SIZE).length
      · rw [if_pos hstop]
        have hle : (L.drop offset).length ≤ PAGE_SIZE := by
          rcases Nat.le_total PAGE_SIZE (L.drop offset).length with h' | h'
          · have hm : min PAGE_SIZE (L.drop offset).length = PAGE_SIZE := min_eq_left h'
            rw [hitems, hm] at hstop
            simp only [PAGE_SIZE] at h' hstop ⊢
            omega
          · exact h'
        rw [List.append_nil, List.take_of_length_le hle]
      · rw [if_neg hstop]
        have h50 : ((L.drop offset).take PAGE_SIZE).length = PAGE_SIZE := by
          rcases Nat.le_total (L.drop offset).length PAGE_SIZE with h' | h'
          · exfalso
            have hm : min PAGE_SIZE (L.drop offset).length = (L.drop offset).length :=
              min_eq_right h'
            rw [hitems, hm, hdlen] at hstop
            omega
          · rw [hitems]
            exact min_eq_left h'
        rw [h50, ih (offset + PAGE_SIZE) (by simp only [PAGE_SIZE] at *; omega)]
        rw [← List.drop_drop PAGE_SIZE offset L]
        exact List.take_append_drop PAGE_SIZE (L.drop offset)

theorem fetch_all_eq (L : List String) : fetch_all_liked_ids L = L := by
  unfold fetch_all_liked_ids
  rw [fetchLoop_drop L (L.length + 1) 0 (by omega), List.drop_zero]

/-! ## Helper lemmas: sublists through `filterMap` -/

theorem filterMap_id_sublist (f : α → Option α) (hf : ∀ x, f x = none ∨ f x = some x) :
    ∀ l : List α, (l.filterMap f).Sublist l := by
  intro l
  induction l with
  | nil => simp
  | cons a t ih =>
    rcases hf a with h | h
    · simp only [List.filterMap_cons, h]
      exact ih.cons a
    · simp only [List.filterMap_cons, h]
      exact ih.cons₂ a

theorem apply_filters_sublist (meta : String → Option Track) (term artist year : String)
    (ids : List String) (hmeta : ∀ t tr, meta t = some tr → tr.id = t) :
    (apply_filters meta term artist year ids).Sublist ids := by
  simp only [apply_filters]
  split
  · exact List.Sublist.refl ids
  · apply filterMap_id_sublist
    intro x
    cases hm : meta x with
    | none => exact Or.inl (by simp only [hm])
    | some tr =>
      simp only [hm]
      split
      · exact Or.inr (by rw [hmeta x tr hm])
      · exact Or.inl rfl

/-! ## Helper lemmas: backoff step equations -/

theorem spCallLoop_ok (fn : Nat → SpOut α) (n i : Nat) (delay : Int) (v : α)
    (hv : fn i = .ok v) : spCallLoop fn (n + 1) i delay = (.ok v, [], i + 1) := by
  rw [spCallLoop, hv]

theorem spCallLoop_429 (fn : Nat → SpOut α) (n i : Nat) (delay ra : Int)
    (hv : fn i = .spErr 429 ra) :
    spCallLoop fn (n + 1) i delay =
      ((spCallLoop fn n (i + 1) (min (delay * 2) 16)).1,
       (if ra > 0 then ra else delay) :: (spCallLoop fn n (i + 1) (min (delay * 2) 16)).2.1,
       (spCallLoop fn n (i + 1) (min (delay * 2) 16)).2.2) := by
  rw [spCallLoop, hv]
  simp

/-! ## Helper lemmas: `ensure_playlist` -/

theorem ensurePlaylist_cached_hit (nm pid : String) (r : RemoteSt) (f : String) :
    ensurePlaylist nm (some pid) nm r f = ⟨pid, some pid, nm, r, 0⟩ := by
  unfold ensurePlaylist
  rw [if_pos rfl]

theorem ensurePlaylist_caches (cn : String) (cid : Option String) (nm : String)
    (r : RemoteSt) (f : String) :
    (ensurePlaylist cn cid nm r f).cachedName = nm ∧
    (ensurePlaylist cn cid nm r f).cachedId = some (ensurePlaylist cn cid nm r f).pid ∧
    (ensurePlaylist cn cid nm r f).creates ≤ 1 := by
  unfold ensurePlaylist
  cases hc : (if cn = nm then cid else none) with
  | none =>
    cases hf : findPl r.me nm r.playlists with
    | none => exact ⟨rfl, rfl, le_refl 1⟩
    | some pl => exact ⟨rfl, rfl, Nat.zero_le 1⟩
  | some pid => exact ⟨rfl, rfl, Nat.zero_le 1⟩

theorem findPl_self_append (me nm : String) (pls : List Playlist) (f : String)
    (h : findPl me nm pls = none) :
    findPl me nm (pls ++ [⟨f, nm, me⟩]) = some ⟨f, nm, me⟩ := by
  unfold findPl at *
  rw [List.find?_append, h]
  simp

/-! ## Claim C7 — backoff on rate limiting -/

/-- A wrapped operation that is rate limited with no wait hint on every
attempt. -/
def fnAll429 : Nat → SpOut Nat := fun _ => .spErr 429 0

/-- A wrapped operation that raises a generic (non-Spotify) error on every
attempt. -/
def fnGenErr : Nat → SpOut Nat := fun _ => .genErr

/-- A wrapped operation failing generically on attempts 0–3 and succeeding on
the final attempt 4. -/
def fnLateOk : Nat → SpOut Nat := fun i => if i < 4 then .genErr else .ok 42

/-- C7: with the default attempt ceiling of 5, an operation that signals
HTTP 429 twice with a positive `Retry-After` hint and then succeeds makes
`sp_call` sleep the hint (not the exponential delay) on each of the two
failures and return the success after exactly 3 attempts; with the hint
absent/non-positive the exponential schedule 1, 2, 4, 8 (doubling, capped at
16 — visible as 1, 2, 4, 8, 16, 16 with a ceiling of 7) is slept instead, and
the 5th, final attempt is made unconditionally. -/
theorem claim_C7_backoff :
    (∀ (α : Type) (v : α) (hint : Int) (fn : Nat → SpOut α),
        fn 0 = .spErr 429 hint → fn 1 = .spErr 429 hint → fn 2 = .ok v → 0 < hint →
        spCall fn 5 = (.ok v, [hint, hint], 3)) ∧
    spCall fnAll429 5 = (.error (.spErr 429 0), [1, 2, 4, 8], 5) ∧
    spCall fnGenErr 7 = (.error .genErr, [1, 2, 4, 8, 16, 16], 7) ∧
    spCall fnLateOk 5 = (.ok 42, [1, 2, 4, 8], 5) := by
  refine ⟨?_, rfl, rfl, rfl⟩
  intro α v hint fn hf0 hf1 hf2 hpos
  show spCallLoop fn 4 0 1 = (.ok v, [hint, hint], 3)
  rw [show (4 : Nat) = 3 + 1 from rfl, spCallLoop_429 fn 3 0 1 hint hf0]
  rw [show (3 : Nat) = 2 + 1 from rfl,
      spCallLoop_429 fn 2 (0 + 1) (min (1 * 2) 16) hint hf1]
  rw [show (2 : Nat) = 1 + 1 from rfl,
      spCallLoop_ok fn 1 (0 + 1 + 1) (min ((min (1 * 2) 16) * 2) 16) v hf2]
  rw [if_pos hpos, if_pos hpos]

/-- A wrapped operation for the C7 witness: 429 with hint 3 twice, then
success. -/
def fnHinted : Nat → SpOut Nat := fun i =>
  if i == 0 || i == 1 then .spErr 429 3 else .ok 7

theorem claim_C7_backoff_witness :
    (fnHinted 0 = .spErr 429 3 ∧ fnHinted 1 = .spErr 429 3 ∧ fnHinted 2 = .ok 7 ∧
      (0 : Int) < 3) ∧
    spCall fnHinted 5 = (.ok 7, [3, 3], 3) :=
  ⟨⟨rfl, rfl, rfl, by decide⟩,
   claim_C7_backoff.1 Nat 7 3 fnHinted rfl rfl rfl (by decide)⟩

/-! ## Claim C8 — pagination completeness -/

/-- C8: `fetch_all_liked_ids` over a paginated source whose server-ordered id
list is `L` returns exactly `L` — hence exactly the reported total number of
items, in server order, and (for a duplicate-free source) each identifier
exactly once. -/
theorem claim_C8_pagination (L : List String) :
    fetch_all_liked_ids L = L ∧
    (fetch_all_liked_ids L).length = L.length ∧
    (L.Nodup → (fetch_all_liked_ids L).Nodup) :=
  ⟨fetch_all_eq L, by rw [fetch_all_eq L], fun h => by rw [fetch_all_eq L]; exact h⟩

theorem claim_C8_pagination_witness :
    (["a", "b", "c"] : List String).Nodup ∧
    (fetch_all_liked_ids ["a", "b", "c"]).Nodup :=
  ⟨by decide, (claim_C8_pagination ["a", "b", "c"]).2.2 (by decide)⟩

/-! ## Claim C9 — idempotent playlist creation -/

/-- C9: calling `ensure_playlist` twice with the same target name returns the
same playlist id both times, the second call issues no create call and the
two calls together issue at most one; when the (effective) cache is empty and
an exact-name owned playlist exists, it is found by the pagination and no
create is issued; the looked-up or created id is cached.  The same
idempotence holds for the cache-free `ensure_playlist` of the swpify_app.py
variant, whose second call finds the playlist created by the first. -/
theorem claim_C9_ensure_idempotent :
    (∀ (cn : String) (cid : Option String) (nm : String) (r : RemoteSt) (f1 f2 : String),
        (ensurePlaylist (ensurePlaylist cn cid nm r f1).cachedName
            (ensurePlaylist cn cid nm r f1).cachedId nm
            (ensurePlaylist cn cid nm r f1).remote f2).pid =
          (ensurePlaylist cn cid nm r f1).pid ∧
        (ensurePlaylist (ensurePlaylist cn cid nm r f1).cachedName
            (ensurePlaylist cn cid nm r f1).cachedId nm
            (ensurePlaylist cn cid nm r f1).remote f2).creates = 0 ∧
        (ensurePlaylist cn cid nm r f1).creates +
          (ensurePlaylist (ensurePlaylist cn cid nm r f1).cachedName
              (ensurePlaylist cn cid nm r f1).cachedId nm
              (ensurePlaylist cn cid nm r f1).remote f2).creates ≤ 1 ∧
        (ensurePlaylist cn cid nm r f1).cachedId =
          some (ensurePlaylist cn cid nm r f1).pid) ∧
    (∀ (nm : String) (r : RemoteSt) (f : String) (pl : Playlist),
        findPl r.me nm r.playlists = some pl →
        (ensurePlaylist nm none nm r f).pid = pl.id ∧
        (ensurePlaylist nm none nm r f).creates = 0) ∧
    (∀ (nm : String) (r : RemoteSt) (f1 f2 : String),
        (ensurePlaylistNC nm (ensurePlaylistNC nm r f1).2.1 f2).1 =
          (ensurePlaylistNC nm r f1).1 ∧
        (ensurePlaylistNC nm r f1).2.2 +
          (ensurePlaylistNC nm (ensurePlaylistNC nm r f1).2.1 f2).2.2 ≤ 1) := by
  refine ⟨?_, ?_, ?_⟩
  · intro cn cid nm r f1 f2
    obtain ⟨hname, hid, hcr⟩ := ensurePlaylist_caches cn cid nm r f1
    rw [hname, hid, ensurePlaylist_cached_hit nm (ensurePlaylist cn cid nm r f1).pid
        (ensurePlaylist cn cid nm r f1).remote f2]
    exact ⟨rfl, rfl, by simpa using hcr, rfl⟩
  · intro nm r f pl hf
    unfold ensurePlaylist
    rw [if_pos rfl]
    simp [hf]
  · intro nm r f1 f2
    cases hf : findPl r.me nm r.playlists with
    | some pl => simp [ensurePlaylistNC, hf]
    | none => simp [ensurePlaylistNC, hf, findPl_self_append r.me nm r.playlists f1 hf]

/-- Concrete remote store for the C9 witness: one owned playlist named K. -/
def remoteW : RemoteSt := ⟨"me", [⟨"p1", "K", "me"⟩]⟩

theorem claim_C9_ensure_idempotent_witness :
    findPl remoteW.me "K" remoteW.playlists = some ⟨"p1", "K", "me"⟩ ∧
    ((ensurePlaylist "K" none "K" remoteW "f").pid = "p1" ∧
     (ensurePlaylist "K" none "K" remoteW "f").creates = 0) :=
  ⟨by decide,
   claim_C9_ensure_idempotent.2.1 "K" remoteW "f" ⟨"p1", "K", "me"⟩ (by decide)⟩

/-! ## Claim C2 — failing finalizing decisions (corrected: the swipify
playlist-id cache and a created remote playlist can survive the failure) -/

/-- Empty remote store for the C2 counterexample. -/
def remoteE : RemoteSt := ⟨"me", []⟩

/-- Concrete swipify state for the C2 counterexample: head `a`, no cached
keepers playlist id. -/
def swC2s : SwState := ⟨["a"], [], none, "K", none, "F", none, 0, "d"⟩

/-- C2 counterexample: in the swipify variant, a file-to-Keepers decision
whose `playlist_add_items` call fails after a successful `ensure_playlist`
does *not* leave the state exactly as before the decision: `ensure_playlist`
already persisted the playlist-id cache to the state file (and here created
the remote playlist) before the add raised. -/
theorem claim_C2_counterexample :
    (swKeepers false true "f" "t" "d" remoteE swC2s).1 ≠ swC2s ∧
    (swKeepers false true "f" "t" "d" remoteE swC2s).2.1 ≠ remoteE := by
  decide

/-- C2 (amended): when the remote side effect of a finalizing decision
(remove / file to Keepers / file to Favourites) raises, the handler performs
no queue pop, no Ledger write and no undo-structure change — the head item
stays pending.  The swpify variant's state is exactly as before in every
failure case, and so is the swipify variant's for remove and for a failing
`ensure_playlist`; but in the swipify variant a failure of the `add` step
after a successful `ensure_playlist` leaves the persisted playlist-id cache
updated to the ensured id (and any playlist created by `ensure_playlist`
existing remotely) — only queue, seen map and `last_action` are untouched
there. -/
theorem claim_C2_failed_decision_atomic :
    (∀ (ts today : String) (s : SpState),
        (spRemove true ts today s).1 = s ∧
        (spFav true ts today s).1 = s ∧
        (spKeepers true ts today s).1 = s) ∧
    (∀ (ts today : String) (s : SwState), (swRemove true ts today s).1 = s) ∧
    (∀ (fId ts today : String) (r : RemoteSt) (s : SwState),
        (swKeepers true false fId ts today r s).1 = s ∧
        (swFav true false fId ts today r s).1 = s) ∧
    (∀ (eF aF : Bool) (fId ts today : String) (r : RemoteSt) (s : SwState),
        (eF || aF) = true →
        ((swKeepers eF aF fId ts today r s).1.queue = s.queue ∧
         (swKeepers eF aF fId ts today r s).1.seen = s.seen ∧
         (swKeepers eF aF fId ts today r s).1.lastAction = s.lastAction) ∧
        ((swFav eF aF fId ts today r s).1.queue = s.queue ∧
         (swFav eF aF fId ts today r s).1.seen = s.seen ∧
         (swFav eF aF fId ts today r s).1.lastAction = s.lastAction)) ∧
    (∀ (fId ts today tid : String) (rest : List String) (r : RemoteSt) (s : SwState),
        s.queue = tid :: rest →
        swKeepers false true fId ts today r s =
          ({ s with keepersId :=
               (ensurePlaylist s.keepersName s.keepersId s.keepersName r fId).cachedId },
           (ensurePlaylist s.keepersName s.keepersId s.keepersName r fId).remote,
           [.plAdd (ensurePlaylist s.keepersName s.keepersId s.keepersName r fId).pid tid]) ∧
        swFav false true fId ts today r s =
          ({ s with favsId :=
               (ensurePlaylist s.favsName s.favsId s.favsName r fId).cachedId },
           (ensurePlaylist s.favsName s.favsId s.favsName r fId).remote,
           [.plAdd (ensurePlaylist s.favsName s.favsId s.favsName r fId).pid tid])) := by
  refine ⟨?_, ?_, ?_, ?_, ?_⟩
  · intro ts today s
    refine ⟨?_, ?_, ?_⟩ <;> (cases hq : s.queue <;> simp [spRemove, spFav, spKeepers, hq])
  · intro ts today s
    cases hq : s.queue <;> simp [swRemove, hq]
  · intro fId ts today r s
    cases hq : s.queue <;> simp [swKeepers, swFav, hq]
  · intro eF aF fId ts today r s h
    cases hq : s.queue with
    | nil => simp [swKeepers, swFav, hq]
    | cons tid rest =>
      cases eF with
      | true => simp [swKeepers, swFav, hq]
      | false =>
        cases aF with
        | true => simp [swKeepers, swFav, hq]
        | false => simp at h
  · intro fId ts today tid rest r s hq
    obtain ⟨q, sn, la, kn, ki, fn, fi, st, sd⟩ := s
    simp only at hq
    subst hq
    exact ⟨rfl, rfl⟩

theorem claim_C2_failed_decision_atomic_witness :
    ((true : Bool) || false) = true ∧
    (((swKeepers true false "f" "t" "d" remoteW
          ⟨["a"], [], none, "K", none, "F", none, 0, "d"⟩).1.queue = ["a"] ∧
      (swKeepers true false "f" "t" "d" remoteW
          ⟨["a"], [], none, "K", none, "F", none, 0, "d"⟩).1.seen = [] ∧
      (swKeepers true false "f" "t" "d" remoteW
          ⟨["a"], [], none, "K", none, "F", none, 0, "d"⟩).1.lastAction = none) ∧
     ((swFav true false "f" "t" "d" remoteW
          ⟨["a"], [], none, "K", none, "F", none, 0, "d"⟩).1.queue = ["a"] ∧
      (swFav true false "f" "t" "d" remoteW
          ⟨["a"], [], none, "K", none, "F", none, 0, "d"⟩).1.seen = [] ∧
      (swFav true false "f" "t" "d" remoteW
          ⟨["a"], [], none, "K", none, "F", none, 0, "d"⟩).1.lastAction = none)) :=
  ⟨rfl, claim_C2_failed_decision_atomic.2.2.2.1 true false "f" "t" "d" remoteW
     ⟨["a"], [], none, "K", none, "F", none, 0, "d"⟩ rfl⟩

/-- Undo on an empty undo stack is an observable no-op (helper). -/
theorem performUndo_nil (b : Bool) (s : SpState) (h : s.last = []) :
    performUndo b s = (s, []) := by
  unfold performUndo
  rw [h]
  rfl

/-- Undo on an empty `last_action` slot is an observable no-op (helper). -/
theorem swUndo_none (b : Bool) (fId : String) (r : RemoteSt) (s : SwState)
    (h : s.lastAction = none) : swUndo b fId r s = (s, r, []) := by
  unfold swUndo
  rw [h]

/-! ## Claim C3 — undo exactness after a remove -/

/-- C3: in both variants, applying the remove decision at the queue head and
then undoing it puts the item identifier back at the queue head, leaves it
absent from the Ledger, and issues the saved-tracks re-add call exactly once
across the two operations; an undo with an empty undo stack (resp. an empty
`last_action` slot) returns the state unchanged and issues no remote call. -/
theorem claim_C3_undo_exact :
    (∀ (ts today tid : String) (rest : List String) (s : SpState),
        s.queue = tid :: rest →
        ((performUndo false (spRemove false ts today s).1).1.queue.head? = some tid ∧
         lookupA tid (performUndo false (spRemove false ts today s).1).1.seen = none ∧
         ((spRemove false ts today s).2 ++
           (performUndo false (spRemove false ts today s).1).2).count
             (RCall.savedAdd tid) = 1)) ∧
    (∀ (b : Bool) (s : SpState), s.last = [] → performUndo b s = (s, [])) ∧
    (∀ (ts today fId tid : String) (rest : List String) (r : RemoteSt) (s : SwState),
        s.queue = tid :: rest →
        ((swUndo false fId r (swRemove false ts today s).1).1.queue.head? = some tid ∧
         lookupA tid (swUndo false fId r (swRemove false ts today s).1).1.seen = none ∧
         ((swRemove false ts today s).2 ++
           (swUndo false fId r (swRemove false ts today s).1).2.2).count
             (RCall.savedAdd tid) = 1)) ∧
    (∀ (b : Bool) (fId : String) (r : RemoteSt) (s : SwState),
        s.lastAction = none → swUndo b fId r s = (s, r, [])) := by
  refine ⟨?_, ?_, ?_, ?_⟩
  · intro ts today tid rest s hq
    obtain ⟨q, sn, la, ki, fi, st, sd⟩ := s
    simp only at hq
    subst hq
    simp [spRemove, performUndo, bumpSwiped, List.getLast?_concat, List.dropLast_concat,
          lookupA_dictErase_self, List.count_cons]
  · intro b s hl
    unfold performUndo
    rw [hl]
    rfl
  · intro ts today fId tid rest r s hq
    obtain ⟨q, sn, la, kn, ki, fn, fi, st, sd⟩ := s
    simp only at hq
    subst hq
    simp [swRemove, swUndo, recordAction, lookupA_dictErase_self, List.count_cons]
  · intro b fId r s hl
    unfold swUndo
    rw [hl]

theorem claim_C3_undo_exact_witness :
    (⟨["a", "b"], [], [], none, none, 0, "d"⟩ : SpState).queue = "a" :: ["b"] ∧
    ((performUndo false
        (spRemove false "t" "d" ⟨["a", "b"], [], [], none, none, 0, "d"⟩).1).1.queue.head? =
          some "a" ∧
     lookupA "a" (performUndo false
        (spRemove false "t" "d" ⟨["a", "b"], [], [], none, none, 0, "d"⟩).1).1.seen = none ∧
     ((spRemove false "t" "d" ⟨["a", "b"], [], [], none, none, 0, "d"⟩).2 ++
       (performUndo false
         (spRemove false "t" "d" ⟨["a", "b"], [], [], none, none, 0, "d"⟩).1).2).count
           (RCall.savedAdd "a") = 1) :=
  ⟨rfl, claim_C3_undo_exact.1 "t" "d" "a" ["b"]
     ⟨["a", "b"], [], [], none, none, 0, "d"⟩ rfl⟩

/-! ## Claim C1 — skip rotation (corrected: skip writes a Ledger entry) -/

/-- C1 counterexample: on a queue of size 2 with an empty Ledger, the skip
handler of either variant leaves the Ledger changed (a `skip` entry is
recorded), contradicting the claim that `record_decision` never touches the
Ledger for a skip. -/
theorem claim_C1_counterexample :
    (spSkip "t" ⟨["a", "b"], [], [], none, none, 0, "d"⟩).1.seen ≠ [] ∧
    (swSkip "t" "d" ⟨["a", "b"], [], none, "K", none, "F", none, 0, "d"⟩).1.seen ≠ [] := by
  decide

/-- C1 (amended): on a queue of size ≥ 2, skip moves the previous head to the
tail, makes the previous second item the new head, and leaves the queue
length unchanged — but in both variants it also records a Ledger (seen)
entry with decision `skip` for the rotated item (leaving all other Ledger
entries unchanged); the swpify variant pushes no undo entry, while the
swipify variant additionally sets the `last_action` slot to the skip. -/
theorem claim_C1_skip_rotation_amended :
    (∀ (ts tid next : String) (rest : List String) (s : SpState),
        s.queue = tid :: next :: rest →
        (spSkip ts s).1.queue.head? = some next ∧
        (spSkip ts s).1.queue.getLast? = some tid ∧
        (spSkip ts s).1.queue.length = s.queue.length ∧
        lookupA tid (spSkip ts s).1.seen = some ⟨.skip, ts⟩ ∧
        (∀ x, x ≠ tid → lookupA x (spSkip ts s).1.seen = lookupA x s.seen) ∧
        (spSkip ts s).1.last = s.last) ∧
    (∀ (ts today tid next : String) (rest : List String) (s : SwState),
        s.queue = tid :: next :: rest →
        (swSkip ts today s).1.queue.head? = some next ∧
        (swSkip ts today s).1.queue.getLast? = some tid ∧
        (swSkip ts today s).1.queue.length = s.queue.length ∧
        lookupA tid (swSkip ts today s).1.seen = some ⟨.skip, ts⟩ ∧
        (∀ x, x ≠ tid → lookupA x (swSkip ts today s).1.seen = lookupA x s.seen) ∧
        (swSkip ts today s).1.lastAction = some (tid, .skip)) := by
  constructor
  · intro ts tid next rest s hq
    obtain ⟨q, sn, la, ki, fi, st, sd⟩ := s
    simp only at hq
    subst hq
    refine ⟨rfl, List.getLast?_concat _, by simp [spSkip], ?_, ?_, rfl⟩
    · show lookupA tid (dictInsert tid ⟨Action.skip, ts⟩ sn) = some ⟨Action.skip, ts⟩
      exact lookupA_dictInsert_self tid ⟨Action.skip, ts⟩ sn
    · intro x hx
      show lookupA x (dictInsert tid ⟨Action.skip, ts⟩ sn) = lookupA x sn
      exact lookupA_dictInsert_ne x tid ⟨Action.skip, ts⟩ hx sn
  · intro ts today tid next rest s hq
    obtain ⟨q, sn, la, kn, ki, fn, fi, st, sd⟩ := s
    simp only at hq
    subst hq
    refine ⟨rfl, List.getLast?_concat _, by simp [swSkip, recordAction], ?_, ?_, rfl⟩
    · show lookupA tid (dictInsert tid ⟨Action.skip, ts⟩ sn) = some ⟨Action.skip, ts⟩
      exact lookupA_dictInsert_self tid ⟨Action.skip, ts⟩ sn
    · intro x hx
      show lookupA x (dictInsert tid ⟨Action.skip, ts⟩ sn) = lookupA x sn
      exact lookupA_dictInsert_ne x tid ⟨Action.skip, ts⟩ hx sn

theorem claim_C1_skip_rotation_amended_witness :
    (⟨["a", "b"], [], [], none, none, 0, "d"⟩ : SpState).queue = "a" :: "b" :: [] ∧
    ((spSkip "t" ⟨["a", "b"], [], [], none, none, 0, "d"⟩).1.queue.head? = some "b" ∧
     (spSkip "t" ⟨["a", "b"], [], [], none, none, 0, "d"⟩).1.queue.getLast? = some "a" ∧
     (spSkip "t" ⟨["a", "b"], [], [], none, none, 0, "d"⟩).1.queue.length =
       (⟨["a", "b"], [], [], none, none, 0, "d"⟩ : SpState).queue.length ∧
     lookupA "a" (spSkip "t" ⟨["a", "b"], [], [], none, none, 0, "d"⟩).1.seen =
       some ⟨.skip, "t"⟩ ∧
     (∀ x, x ≠ "a" →
        lookupA x (spSkip "t" ⟨["a", "b"], [], [], none, none, 0, "d"⟩).1.seen =
          lookupA x (⟨["a", "b"], [], [], none, none, 0, "d"⟩ : SpState).seen) ∧
     (spSkip "t" ⟨["a", "b"], [], [], none, none, 0, "d"⟩).1.last =
       (⟨["a", "b"], [], [], none, none, 0, "d"⟩ : SpState).last) :=
  ⟨rfl, claim_C1_skip_rotation_amended.1 "t" "a" "b" []
     ⟨["a", "b"], [], [], none, none, 0, "d"⟩ rfl⟩

/-! ## Claim C4 — undo with a failing reversal (corrected: no local rollback) -/

/-- C4 counterexample: remove `"a"` from the head, then undo while the remote
re-add call hard-fails.  The claim says the Ledger entry is still erased and
the item is back at the queue head; in fact the code reaches neither local
mutation (the exception skips the rollback): the Ledger still holds the
`remove` entry and the head is unchanged. -/
theorem claim_C4_counterexample :
    lookupA "a" (performUndo true
        (spRemove false "t" "d" ⟨["a", "b"], [], [], none, none, 0, "d"⟩).1).1.seen ≠ none ∧
    (performUndo true
        (spRemove false "t" "d" ⟨["a", "b"], [], [], none, none, 0, "d"⟩).1).1.queue.head? ≠
      some "a" := by
  decide

/-- C4 (amended): when the remote reversal raises during undo — whichever
reversal it is (saved-tracks re-add for a prior remove, playlist removal for
a prior file-to-Keepers/file-to-Favourites) — the error is reported and the
Ledger/Queue are left exactly as they were: the undo is simply not applied,
though the reversal call was issued.  In the swpify variant the popped
undo-stack entry is nonetheless consumed (only `last` changes, to its
`dropLast`); in the swipify variant the queue, Ledger and `last_action` slot
are untouched (for a keepers/favourite reversal failure the playlist-id
cache persisted by the preceding successful `ensure_playlist` can still
remain written). -/
theorem claim_C4_undo_failure_amended :
    (∀ (s : SpState) (e : UndoEntry),
        s.last.getLast? = some e → e.action = .remove →
        performUndo true s = ({ s with last := s.last.dropLast }, [.savedAdd e.id])) ∧
    (∀ (s : SpState) (e : UndoEntry) (pid : String),
        s.last.getLast? = some e → e.action = .keepers ∨ e.action = .favourite →
        e.payload = some pid →
        performUndo true s = ({ s with last := s.last.dropLast }, [.plRemoveAll pid e.id])) ∧
    (∀ (fId tid : String) (r : RemoteSt) (s : SwState),
        s.lastAction = some (tid, .remove) →
        swUndo true fId r s = (s, r, [.savedAdd tid])) ∧
    (∀ (fId tid : String) (act : Action) (r : RemoteSt) (s : SwState),
        s.lastAction = some (tid, act) → act = .keepers ∨ act = .favourite →
        (swUndo true fId r s).1.queue = s.queue ∧
        (swUndo true fId r s).1.seen = s.seen ∧
        (swUndo true fId r s).1.lastAction = s.lastAction ∧
        (swUndo true fId r s).2.2 ≠ []) := by
  refine ⟨?_, ?_, ?_, ?_⟩
  · intro s e hg ha
    unfold performUndo
    rw [hg]
    obtain ⟨eid, eact, epl⟩ := e
    simp only at ha
    subst ha
    simp
  · intro s e pid hg hor hp
    unfold performUndo
    rw [hg]
    obtain ⟨eid, eact, epl⟩ := e
    simp only at hor hp
    subst hp
    rcases hor with ha | ha <;> subst ha <;> simp
  · intro fId tid r s hl
    unfold swUndo
    rw [hl]
    simp
  · intro fId tid act r s hl hor
    rcases hor with ha | ha <;> subst ha <;>
      (unfold swUndo; rw [hl]; simp)

theorem claim_C4_undo_failure_amended_witness :
    ((⟨["b"], [("a", ⟨.remove, "t"⟩)], [⟨"a", .remove, none⟩], none, none, 1, "d"⟩ :
        SpState).last.getLast? = some ⟨"a", .remove, none⟩ ∧
      (⟨"a", .remove, none⟩ : UndoEntry).action = .remove) ∧
    performUndo true
        ⟨["b"], [("a", ⟨.remove, "t"⟩)], [⟨"a", .remove, none⟩], none, none, 1, "d"⟩ =
      ({ (⟨["b"], [("a", ⟨.remove, "t"⟩)], [⟨"a", .remove, none⟩], none, none, 1, "d"⟩ :
           SpState) with
         last := (⟨["b"], [("a", ⟨.remove, "t"⟩)], [⟨"a", .remove, none⟩], none, none, 1,
           "d"⟩ : SpState).last.dropLast },
       [.savedAdd "a"]) :=
  ⟨⟨rfl, rfl⟩,
   claim_C4_undo_failure_amended.1
     ⟨["b"], [("a", ⟨.remove, "t"⟩)], [⟨"a", .remove, none⟩], none, none, 1, "d"⟩
     ⟨"a", .remove, none⟩ rfl rfl⟩

/-! ## Claim C6 — undo depth (corrected: the swpify variant has a real stack) -/

/-- C6 counterexample: in the swpify variant, after two keep decisions and
one undo, a second undo is not a no-op — it reverses the earlier keep as
well (the undo stack retains every prior finalizing action), contradicting
the claim that a second `undo()` does not replay any earlier decision. -/
theorem claim_C6_counterexample :
    (performUndo false
        (performUndo false
          (spKeep "t2" "d" (spKeep "t1" "d"
            ⟨["a", "b"], [], [], none, none, 0, "d"⟩).1).1).1).1 ≠
      (performUndo false
        (spKeep "t2" "d" (spKeep "t1" "d"
          ⟨["a", "b"], [], [], none, none, 0, "d"⟩).1).1).1 := by
  decide

/-- C6 (amended): each undo consumes exactly the single most recent stack
entry, strictly LIFO with no redo — in the swpify variant the stack after any
undo is the `dropLast` of the stack before, so repeated undo walks back
through *all* prior finalizing decisions one at a time (multi-level undo);
in the swipify variant the single `last_action` slot is cleared by a
successful undo, so there a second undo is an observable no-op. -/
theorem claim_C6_undo_depth_amended :
    (∀ (b : Bool) (s : SpState), (performUndo b s).1.last = s.last.dropLast) ∧
    (∀ (fId tid : String) (act : Action) (r : RemoteSt) (s : SwState),
        s.lastAction = some (tid, act) →
        (swUndo false fId r s).1.lastAction = none) ∧
    (∀ (b : Bool) (fId fId2 tid : String) (act : Action) (r r2 : RemoteSt) (s : SwState),
        s.lastAction = some (tid, act) →
        swUndo b fId2 r2 (swUndo false fId r s).1 =
          ((swUndo false fId r s).1, r2, [])) := by
  have hnone : ∀ (fId tid : String) (act : Action) (r : RemoteSt) (s : SwState),
      s.lastAction = some (tid, act) → (swUndo false fId r s).1.lastAction = none := by
    intro fId tid act r s hl
    unfold swUndo
    rw [hl]
    cases act <;> simp
  refine ⟨?_, hnone, ?_⟩
  · intro b s
    cases hg : s.last.getLast? with
    | none =>
      rw [performUndo_nil b s (List.getLast?_eq_none_iff.mp hg)]
      rw [List.getLast?_eq_none_iff.mp hg]
      rfl
    | some e =>
      simp only [performUndo, hg]
      split <;> rfl
  · intro b fId fId2 tid act r r2 s hl
    exact swUndo_none b fId2 r2 (swUndo false fId r s).1 (hnone fId tid act r s hl)

theorem claim_C6_undo_depth_amended_witness :
    (⟨["b"], [("a", ⟨.keep, "t"⟩)], some ("a", .keep), "K", none, "F", none, 1, "d"⟩ :
        SwState).lastAction = some ("a", .keep) ∧
    swUndo true "f2" remoteW
        (swUndo false "f" remoteW
          ⟨["b"], [("a", ⟨.keep, "t"⟩)], some ("a", .keep), "K", none, "F", none, 1,
            "d"⟩).1 =
      ((swUndo false "f" remoteW
          ⟨["b"], [("a", ⟨.keep, "t"⟩)], some ("a", .keep), "K", none, "F", none, 1,
            "d"⟩).1,
       remoteW, []) :=
  ⟨rfl, claim_C6_undo_depth_amended.2.2 true "f" "f2" "a" .keep remoteW remoteW
     ⟨["b"], [("a", ⟨.keep, "t"⟩)], some ("a", .keep), "K", none, "F", none, 1, "d"⟩ rfl⟩

/-! ## Claim C10 — filter conjunction (corrected: one variant matches per field) -/

/-- Concrete track for the C10 counterexample: title `a`, one artist `b`. -/
def trackW : Track := ⟨"i1", "a", ["b"], "", ""⟩

/-- C10 counterexample: the text criterion of the swipify_app.py evaluator
does not match against the concatenation of title, contributor names and
album name — it matches the three fields separately.  For the term `"a b"`
and a track titled `a` by artist `b`, the term is a substring of the
concatenation but the evaluator rejects the track. -/
theorem claim_C10_counterexample :
    swTrackOk "a b" "" "" trackW = false ∧
    pyIn (pyLower (pyStrip "a b")) (trackBlob trackW) = true := by
  decide

/-- C10 (amended): both variants evaluate the filter as a conjunction of the
present criteria, with an absent criterion vacuously true: with text and year
both set, an item matches iff the text condition and the exact-year condition
each hold, and blanking either criterion degrades the evaluator to the other
condition alone — proved below for the swpify evaluator (parts 1–3) and for
the swipify evaluator (parts 4–6).  The text criterion is case-insensitive;
in the swpify variant it matches against the space-joined concatenation of
title, contributor names and album name, while in the swipify variant it
matches each of the three fields separately (so a term spanning a field
boundary matches only in the swpify variant). -/
theorem claim_C10_filter_conjunction_amended :
    (∀ (term year : String) (tr : Track),
        pyLower (pyStrip term) ≠ "" → pyStrip year ≠ "" →
        spMatches term "" year tr =
          (pyIn (pyLower (pyStrip term)) (trackBlob tr) &&
            take4 tr.releaseDate == pyStrip year)) ∧
    (∀ (term : String) (tr : Track),
        spMatches term "" "" tr =
          (pyLower (pyStrip term) == "" || pyIn (pyLower (pyStrip term)) (trackBlob tr))) ∧
    (∀ (year : String) (tr : Track),
        spMatches "" "" year tr =
          (pyStrip year == "" || take4 tr.releaseDate == pyStrip year)) ∧
    (∀ (term year : String) (tr : Track),
        term ≠ "" → year ≠ "" →
        swTrackOk term "" year tr =
          ((pyIn (pyLower term) (pyLower tr.name) ||
            pyIn (pyLower term) (pyLower (String.intercalate ", " tr.artists)) ||
            pyIn (pyLower term) (pyLower tr.albumName)) &&
           take4 tr.releaseDate == pyStrip year)) ∧
    (∀ (term : String) (tr : Track),
        swTrackOk term "" "" tr =
          (term == "" ||
            (pyIn (pyLower term) (pyLower tr.name) ||
             pyIn (pyLower term) (pyLower (String.intercalate ", " tr.artists)) ||
             pyIn (pyLower term) (pyLower tr.albumName)))) ∧
    (∀ (year : String) (tr : Track),
        swTrackOk "" "" year tr =
          (year == "" || take4 tr.releaseDate == pyStrip year)) := by
  have hempty : pyLower (pyStrip "") = "" := rfl
  have hempty2 : pyStrip "" = "" := rfl
  have hempty3 : pyLower "" = "" := rfl
  refine ⟨?_, ?_, ?_, ?_, ?_, ?_⟩
  · intro term year tr ht hy
    have h1 : (pyLower (pyStrip term) == "") = false := beq_eq_false_iff_ne.mpr ht
    have h2 : (pyStrip year == "") = false := beq_eq_false_iff_ne.mpr hy
    simp [spMatches, spTrackOk, hempty, h1, h2]
  · intro term tr
    simp [spMatches, spTrackOk, hempty, hempty2, hempty3]
  · intro year tr
    simp [spMatches, spTrackOk, hempty, hempty2, hempty3]
  · intro term year tr ht hy
    have h1 : (term == "") = false := beq_eq_false_iff_ne.mpr ht
    have h2 : (year == "") = false := beq_eq_false_iff_ne.mpr hy
    simp [swTrackOk, h1, h2]
  · intro term tr
    simp [swTrackOk]
  · intro year tr
    simp [swTrackOk]

/-- Concrete track for the C10 witness: title `foo song`, released 2020. -/
def trackW2 : Track := ⟨"i2", "foo song", ["x"], "alb", "2020-01-01"⟩

theorem claim_C10_filter_conjunction_amended_witness :
    (pyLower (pyStrip "foo") ≠ "" ∧ pyStrip "2020" ≠ "") ∧
    spMatches "foo" "" "2020" trackW2 =
      (pyIn (pyLower (pyStrip "foo")) (trackBlob trackW2) &&
        take4 trackW2.releaseDate == pyStrip "2020") :=
  ⟨⟨by decide, by decide⟩,
   claim_C10_filter_conjunction_amended.1 "foo" "2020" trackW2 (by decide) (by decide)⟩

/-! ## Claim C5 — queue/Ledger invariant (corrected: skip breaks it) -/

instance (s : SpState) : Decidable (Inv s) :=
  inferInstanceAs (Decidable (s.queue.Nodup ∧ ∀ tid ∈ s.queue, lookupA tid s.seen = none))

instance (s : SwState) : Decidable (SwInv s) :=
  inferInstanceAs (Decidable (s.queue.Nodup ∧ ∀ tid ∈ s.queue, lookupA tid s.seen = none))

/-- `build_queue` unfolded to its final state (helper). -/
theorem build_queue_eq (meta : String → Option Track) (L : List String)
    (perm : List String → List String) (doShuffle : Bool) (term artist year : String)
    (s : SpState) :
    build_queue meta L perm doShuffle term artist year s =
      { s with queue :=
          if doShuffle then
            perm (if (term != "" || artist != "" || year != "") = true
                  then apply_filters meta term artist year
                    ((fetch_all_liked_ids L).filter fun tid => (lookupA tid s.seen).isNone)
                  else (fetch_all_liked_ids L).filter fun tid => (lookupA tid s.seen).isNone)
          else
            (if (term != "" || artist != "" || year != "") = true
             then apply_filters meta term artist year
               ((fetch_all_liked_ids L).filter fun tid => (lookupA tid s.seen).isNone)
             else (fetch_all_liked_ids L).filter fun tid =>
               (lookupA tid s.seen).isNone) } := rfl

/-- `refill_queue` unfolded to its final state (helper). -/
theorem refill_queue_eq (meta : String → Option Track) (L : List String)
    (perm : List String → List String) (doShuffle : Bool) (term artist year : String)
    (s : SwState) :
    refill_queue meta L perm doShuffle term artist year s =
      { s with queue :=
          if doShuffle then
            perm (if (term != "" || artist != "" || year != "") = true
                  then ((fetch_all_liked_ids L).filter fun tid =>
                          (lookupA tid s.seen).isNone).filterMap (fun tid =>
                            match meta tid with
                            | none => none
                            | some tr =>
                              if swTrackOk term artist year tr then some tr.id else none)
                  else (fetch_all_liked_ids L).filter fun tid => (lookupA tid s.seen).isNone)
          else
            (if (term != "" || artist != "" || year != "") = true
             then ((fetch_all_liked_ids L).filter fun tid =>
                     (lookupA tid s.seen).isNone).filterMap (fun tid =>
                       match meta tid with
                       | none => none
                       | some tr =>
                         if swTrackOk term artist year tr then some tr.id else none)
             else (fetch_all_liked_ids L).filter fun tid =>
               (lookupA tid s.seen).isNone) } := rfl

/-- The per-track filter pass of `refill_queue` only drops ids (helper). -/
theorem refill_filter_sublist (meta : String → Option Track) (term artist year : String)
    (ids : List String) (hmeta : ∀ t tr, meta t = some tr → tr.id = t) :
    (ids.filterMap (fun tid =>
      match meta tid with
      | none => none
      | some tr => if swTrackOk term artist year tr then some tr.id else none)).Sublist
      ids := by
  apply filterMap_id_sublist
  intro x
  cases hm : meta x with
  | none => exact Or.inl (by simp only [hm])
  | some tr =>
    simp only [hm]
    split
    · exact Or.inr (by rw [hmeta x tr hm])
    · exact Or.inl rfl

/-- The queue pipeline shared by `build_queue` and `refill_queue`: any
sublist of the seen-filtered fetch, optionally shuffled, is duplicate-free
(for a duplicate-free source) and disjoint from the seen map (helper). -/
theorem pipeline_inv (L : List String) (sn : Seen) (X : List String)
    (perm : List String → List String) (b : Bool)
    (hL : L.Nodup) (hperm : ∀ l, (perm l).Perm l)
    (hX : X.Sublist ((fetch_all_liked_ids L).filter fun tid => (lookupA tid sn).isNone)) :
    (if b then perm X else X).Nodup ∧
    ∀ x ∈ (if b then perm X else X), lookupA x sn = none := by
  have hFnodup : ((fetch_all_liked_ids L).filter fun tid => (lookupA tid sn).isNone).Nodup := by
    rw [fetch_all_eq]
    exact hL.filter _
  have hXnodup : X.Nodup := List.Nodup.sublist hX hFnodup
  have hXmem : ∀ x ∈ X, lookupA x sn = none := by
    intro x hx
    exact Option.isNone_iff_eq_none.mp (List.mem_filter.mp (hX.subset hx)).2
  constructor
  · split
    · exact ((hperm _).nodup_iff).mpr hXnodup
    · exact hXnodup
  · intro x hx
    revert hx
    split
    · intro hx
      exact hXmem x (((hperm _).mem_iff).mp hx)
    · exact fun hx => hXmem x hx

/-- Popping the head and finalizing it in the Ledger preserves the invariant
(helper). -/
theorem Inv_pop_insert (tid : String) (rest : List String) (sn : Seen) (v : SeenEntry)
    (hnd : (tid :: rest).Nodup) (hdisj : ∀ x ∈ tid :: rest, lookupA x sn = none) :
    rest.Nodup ∧ ∀ x ∈ rest, lookupA x (dictInsert tid v sn) = none := by
  constructor
  · exact (List.nodup_cons.mp hnd).2
  · intro x hx
    have hne : x ≠ tid := by
      intro he
      exact (List.nodup_cons.mp hnd).1 (he ▸ hx)
    rw [lookupA_dictInsert_ne x tid v hne]
    exact hdisj x (List.mem_cons_of_mem tid hx)

/-- Erasing the undone id from the Ledger and moving it to the queue head
preserves the invariant (helper). -/
theorem Inv_undo_core (tid : String) (q : List String) (sn : Seen)
    (h1 : q.Nodup) (h2 : ∀ x ∈ q, lookupA x sn = none) :
    (tid :: q.erase tid).Nodup ∧
    ∀ x ∈ tid :: q.erase tid, lookupA x (dictErase tid sn) = none := by
  constructor
  · rw [List.nodup_cons]
    exact ⟨fun hmem => ((List.Nodup.mem_erase_iff h1).mp hmem).1 rfl, h1.erase tid⟩
  · intro x hx
    rcases List.mem_cons.mp hx with he | hm
    · rw [he]
      exact lookupA_dictErase_self tid sn
    · by_cases hxe : x = tid
      · rw [hxe]
        exact lookupA_dictErase_self tid sn
      · rw [lookupA_dictErase_ne x tid hxe]
        exact h2 x (List.mem_of_mem_erase hm)

/-- C5 counterexample: in each variant, from a state satisfying the
invariant (queue `["a", "b"]`, empty Ledger), the skip decision records a
Ledger entry for `"a"` while `"a"` stays in the queue — the invariant does
not survive `apply_decision(skip)`. -/
theorem claim_C5_counterexample :
    (Inv (⟨["a", "b"], [], [], none, none, 0, "d"⟩ : SpState) ∧
      ¬ Inv (spSkip "t" ⟨["a", "b"], [], [], none, none, 0, "d"⟩).1) ∧
    (SwInv (⟨["a", "b"], [], none, "K", none, "F", none, 0, "d"⟩ : SwState) ∧
      ¬ SwInv (swSkip "t" "d"
          ⟨["a", "b"], [], none, "K", none, "F", none, 0, "d"⟩).1) := by
  decide

/-- C5 (amended), for both variants: queue building (`build_queue` /
`refill_queue`, for any shuffle permutation, duplicate-free source and a
metadata fetch that returns the requested id), the finalizing decisions
keep/remove/file-to-Favourites/file-to-Keepers (succeeding or failing in any
way), and undo (succeeding or failing) all preserve the invariant "no
duplicate ids in the queue, and no queued id has a Ledger entry"; skip
preserves queue duplicate-freeness and queue length in both variants, but
not Ledger-disjointness (it records the rotated head in the Ledger — see the
counterexample). -/
theorem claim_C5_invariant_amended :
    (∀ (meta : String → Option Track) (L : List String)
        (perm : List String → List String) (b : Bool) (term artist year : String)
        (s : SpState),
        L.Nodup → (∀ l, (perm l).Perm l) → (∀ t tr, meta t = some tr → tr.id = t) →
        Inv (build_queue meta L perm b term artist year s)) ∧
    (∀ (meta : String → Option Track) (L : List String)
        (perm : List String → List String) (b : Bool) (term artist year : String)
        (s : SwState),
        L.Nodup → (∀ l, (perm l).Perm l) → (∀ t tr, meta t = some tr → tr.id = t) →
        SwInv (refill_queue meta L perm b term artist year s)) ∧
    (∀ (ts today : String) (s : SpState), Inv s → Inv (spKeep ts today s).1) ∧
    (∀ (ts today : String) (s : SwState), SwInv s → SwInv (swKeep ts today s).1) ∧
    (∀ (rf : Bool) (ts today : String) (s : SpState), Inv s →
        Inv (spRemove rf ts today s).1 ∧ Inv (spFav rf ts today s).1 ∧
        Inv (spKeepers rf ts today s).1) ∧
    (∀ (rf eF aF : Bool) (fId ts today : String) (r : RemoteSt) (s : SwState), SwInv s →
        SwInv (swRemove rf ts today s).1 ∧
        SwInv (swKeepers eF aF fId ts today r s).1 ∧
        SwInv (swFav eF aF fId ts today r s).1) ∧
    (∀ (rf : Bool) (s : SpState), Inv s → Inv (performUndo rf s).1) ∧
    (∀ (rf : Bool) (fId : String) (r : RemoteSt) (s : SwState), SwInv s →
        SwInv (swUndo rf fId r s).1) ∧
    (∀ (ts : String) (s : SpState), Inv s →
        (spSkip ts s).1.queue.Nodup ∧ (spSkip ts s).1.queue.length = s.queue.length) ∧
    (∀ (ts today : String) (s : SwState), SwInv s →
        (swSkip ts today s).1.queue.Nodup ∧
        (swSkip ts today s).1.queue.length = s.queue.length) := by
  refine ⟨?_, ?_, ?_, ?_, ?_, ?_, ?_, ?_, ?_, ?_⟩
  · intro meta L perm b term artist year s hL hperm hmeta
    rw [build_queue_eq]
    have hsub : (if (term != "" || artist != "" || year != "") = true
        then apply_filters meta term artist year
          ((fetch_all_liked_ids L).filter fun tid => (lookupA tid s.seen).isNone)
        else (fetch_all_liked_ids L).filter fun tid =>
          (lookupA tid s.seen).isNone).Sublist
        ((fetch_all_liked_ids L).filter fun tid => (lookupA tid s.seen).isNone) := by
      split
      · exact apply_filters_sublist meta term artist year _ hmeta
      · exact List.Sublist.refl _
    have h := pipeline_inv L s.seen _ perm b hL hperm hsub
    exact ⟨h.1, h.2⟩
  · intro meta L perm b term artist year s hL hperm hmeta
    rw [refill_queue_eq]
    have hsub : (if (term != "" || artist != "" || year != "") = true
        then ((fetch_all_liked_ids L).filter fun tid =>
                (lookupA tid s.seen).isNone).filterMap (fun tid =>
                  match meta tid with
                  | none => none
                  | some tr => if swTrackOk term artist year tr then some tr.id else none)
        else (fetch_all_liked_ids L).filter fun tid =>
          (lookupA tid s.seen).isNone).Sublist
        ((fetch_all_liked_ids L).filter fun tid => (lookupA tid s.seen).isNone) := by
      split
      · exact refill_filter_sublist meta term artist year _ hmeta
      · exact List.Sublist.refl _
    have h := pipeline_inv L s.seen _ perm b hL hperm hsub
    exact ⟨h.1, h.2⟩
  · intro ts today s hs
    obtain ⟨q, sn, la, ki, fi, st, sd⟩ := s
    cases q with
    | nil => exact hs
    | cons tid rest =>
      have hp := Inv_pop_insert tid rest sn ⟨.keep, ts⟩ hs.1 hs.2
      exact ⟨hp.1, hp.2⟩
  · intro ts today s hs
    obtain ⟨q, sn, la, kn, ki, fn, fi, st, sd⟩ := s
    cases q with
    | nil => exact hs
    | cons tid rest =>
      have hp := Inv_pop_insert tid rest sn ⟨.keep, ts⟩ hs.1 hs.2
      exact ⟨hp.1, hp.2⟩
  · intro rf ts today s hs
    obtain ⟨q, sn, la, ki, fi, st, sd⟩ := s
    cases q with
    | nil => exact ⟨hs, hs, hs⟩
    | cons tid rest =>
      cases rf with
      | true => exact ⟨hs, hs, hs⟩
      | false =>
        refine ⟨?_, ?_, ?_⟩
        · have hp := Inv_pop_insert tid rest sn ⟨.remove, ts⟩ hs.1 hs.2
          exact ⟨hp.1, hp.2⟩
        · have hp := Inv_pop_insert tid rest sn ⟨.favourite, ts⟩ hs.1 hs.2
          exact ⟨hp.1, hp.2⟩
        · have hp := Inv_pop_insert tid rest sn ⟨.keepers, ts⟩ hs.1 hs.2
          exact ⟨hp.1, hp.2⟩
  · intro rf eF aF fId ts today r s hs
    obtain ⟨q, sn, la, kn, ki, fn, fi, st, sd⟩ := s
    cases q with
    | nil => exact ⟨hs, hs, hs⟩
    | cons tid rest =>
      refine ⟨?_, ?_, ?_⟩
      · cases rf with
        | true => exact hs
        | false =>
          have hp := Inv_pop_insert tid rest sn ⟨.remove, ts⟩ hs.1 hs.2
          exact ⟨hp.1, hp.2⟩
      · cases eF with
        | true => exact hs
        | false =>
          cases aF with
          | true => exact hs
          | false =>
            have hp := Inv_pop_insert tid rest sn ⟨.keepers, ts⟩ hs.1 hs.2
            exact ⟨hp.1, hp.2⟩
      · cases eF with
        | true => exact hs
        | false =>
          cases aF with
          | true => exact hs
          | false =>
            have hp := Inv_pop_insert tid rest sn ⟨.favourite, ts⟩ hs.1 hs.2
            exact ⟨hp.1, hp.2⟩
  · intro rf s hs
    cases hg : s.last.getLast? with
    | none =>
      rw [performUndo_nil rf s (List.getLast?_eq_none_iff.mp hg)]
      exact hs
    | some e =>
      have hcore := Inv_undo_core e.id s.queue s.seen hs.1 hs.2
      simp only [performUndo, hg]
      split
      · exact hs
      · exact ⟨hcore.1, hcore.2⟩
  · intro rf fId r s hs
    cases hl : s.lastAction with
    | none =>
      rw [swUndo_none rf fId r s hl]
      exact hs
    | some p =>
      obtain ⟨tid, act⟩ := p
      have hcore := Inv_undo_core tid s.queue s.seen hs.1 hs.2
      simp only [swUndo, hl]
      cases act with
      | remove =>
        cases rf with
        | true => exact hs
        | false => exact ⟨hcore.1, hcore.2⟩
      | keepers =>
        cases rf with
        | true => exact hs
        | false => exact ⟨hcore.1, hcore.2⟩
      | favourite =>
        cases rf with
        | true => exact hs
        | false => exact ⟨hcore.1, hcore.2⟩
      | keep => exact ⟨hcore.1, hcore.2⟩
      | skip => exact ⟨hcore.1, hcore.2⟩
  · intro ts s hs
    obtain ⟨q, sn, la, ki, fi, st, sd⟩ := s
    cases q with
    | nil => exact ⟨hs.1, rfl⟩
    | cons tid rest =>
      constructor
      · show (rest ++ [tid]).Nodup
        exact ((List.perm_append_singleton tid rest).nodup_iff).mpr hs.1
      · show (rest ++ [tid]).length = (tid :: rest).length
        simp
  · intro ts today s hs
    obtain ⟨q, sn, la, kn, ki, fn, fi, st, sd⟩ := s
    cases q with
    | nil => exact ⟨hs.1, rfl⟩
    | cons tid rest =>
      constructor
      · show (rest ++ [tid]).Nodup
        exact ((List.perm_append_singleton tid rest).nodup_iff).mpr hs.1
      · show (rest ++ [tid]).length = (tid :: rest).length
        simp

theorem claim_C5_invariant_amended_witness :
    Inv (⟨["a", "b"], [], [], none, none, 0, "d"⟩ : SpState) ∧
    Inv (spKeep "t" "d" ⟨["a", "b"], [], [], none, none, 0, "d"⟩).1 :=
  ⟨by decide,
   claim_C5_invariant_amended.2.2.1 "t" "d"
     ⟨["a", "b"], [], [], none, none, 0, "d"⟩ (by decide)⟩

end Swpify
